import Mathlib

/-!
Shallow embedding of the `ercDeployer` repository (deployTokens.js,
interactWithTokens.js, verifyContracts.js) and proofs about the claims of
its specification.

Conventions of the embedding:
* decimal amount strings are modelled as Lean `String`s, processed through
  their character lists;
* big integers (`BigInt` in the JavaScript source) are modelled as `Nat`/`Int`;
* every fallible step of an external collaborator (the chain client, the
  explorer HTTP API) is an oracle field of an environment structure returning
  `Except`/`Option` values, and the orchestration code of the repository is
  translated statement by statement over those oracles;
* the in-memory file system is a map from path strings to JSON values, since
  `JSON.stringify`/`JSON.parse` of the external runtime are modelled at the
  JSON-value level.
-/

namespace ErcDeployer

/-! ### Decimal digit and string primitives -/

/-- `true` exactly on the ASCII characters `'0'`–`'9'`. -/
def isDigitChar (c : Char) : Bool :=
  decide ('0' ≤ c) && decide (c ≤ '9')

/-- The ASCII character of a decimal digit (`0 ↦ '0'`, …, `9 ↦ '9'`). -/
def digitToChar (d : Nat) : Char :=
  Char.ofNat (48 + d)

/-- The numeric value of an ASCII decimal digit character. -/
def charToDigit (c : Char) : Nat :=
  c.toNat - 48

/-- Value of a most-significant-first list of decimal digit characters. -/
def digitsToNat (cs : List Char) : Nat :=
  cs.foldl (fun acc c => acc * 10 + charToDigit c) 0

/-- Decimal rendering of a natural number, as produced by
`BigInt.prototype.toString()` in the JavaScript source (used for the
`gasUsed` field of a deployment record). -/
def natToDecimalString (n : Nat) : String :=
  if n = 0 then "0" else ⟨((Nat.digits 10 n).map digitToChar).reverse⟩

/-- Reading a decimal string back into a natural number: succeeds exactly on
nonempty all-digit strings. -/
def parseDecimalNat (s : String) : Option Nat :=
  if !s.data.isEmpty && s.data.all isDigitChar then some (digitsToNat s.data)
  else none

/-! ### `ethers.parseUnits` (the scaling rule of deployTokens.js lines
505/532/591 and verifyContracts.js line 107)

`ethers` parses the value with the shape `^(-?)([0-9]*)\.?([0-9]*)$`
(whole part and fractional part not both empty), pads the fractional part to
`decimals` digits, and faults when the fractional part is longer than
`decimals`. -/

/-- Split a character list into (sign, whole digits, fractional digits)
following the `ethers` fixed-number string shape; `none` when the string does
not have that shape. -/
def splitDecimal (cs : List Char) : Option (Bool × List Char × List Char) :=
  let (neg, rest) :=
    match cs with
    | '-' :: t => (true, t)
    | _ => (false, cs)
  let whole := rest.takeWhile isDigitChar
  let rest2 := rest.dropWhile isDigitChar
  match rest2 with
  | [] => if whole.isEmpty then none else some (neg, whole, [])
  | '.' :: t =>
    let frac := t.takeWhile isDigitChar
    let rest3 := t.dropWhile isDigitChar
    if rest3.isEmpty && !(whole.isEmpty && frac.isEmpty) then
      some (neg, whole, frac)
    else none
  | _ => none

/-- `ethers.parseUnits s d`: the on-chain integer obtained by scaling the
decimal string `s` by `10 ^ d` with exact integer arithmetic; `none` when the
string is malformed or has more than `d` fractional digits. -/
def parseUnits (s : String) (d : Nat) : Option Int :=
  match splitDecimal s.data with
  | none => none
  | some (neg, whole, frac) =>
    if d < frac.length then none
    else
      let mag : Nat :=
        digitsToNat whole * 10 ^ d + digitsToNat frac * 10 ^ (d - frac.length)
      some (if neg then -(mag : Int) else (mag : Int))

/-- The exact rational number denoted by a decimal string (the mathematical
reading "s" used by the specification's scaling property). -/
def decValue (s : String) : Option ℚ :=
  match splitDecimal s.data with
  | none => none
  | some (neg, whole, frac) =>
    let q : ℚ :=
      (digitsToNat whole : ℚ) + (digitsToNat frac : ℚ) / 10 ^ frac.length
    some (if neg then -q else q)

/-- Number of fractional digits of a decimal string (0 when malformed). -/
def fracDigits (s : String) : Nat :=
  match splitDecimal s.data with
  | none => 0
  | some (_, _, frac) => frac.length

/-- JavaScript `String.prototype.toUpperCase`, modelled character-wise
(the role strings of the CLI are ASCII). -/
def jsToUpper (s : String) : String :=
  ⟨s.data.map Char.toUpper⟩

/-! ### Data model (deployTokens.js) -/

/-- An entry of `initialHolders` in the token configuration. -/
structure Holder where
  address : String
  amount : String
deriving DecidableEq

/-- A validated token definition from `tokens.json` (the `|| false` defaults
of the source already applied to the three feature flags). -/
structure TokenDefinition where
  name : String
  symbol : String
  decimals : Nat
  initialSupply : String
  mintable : Bool
  burnable : Bool
  pausable : Bool
  initialHolders : List Holder
deriving DecidableEq

/-- The contract object returned by `factory.deploy` once the creation
transaction is submitted: its address and its deployment transaction hash. -/
structure DeployedContract where
  address : String
  txHash : String
deriving DecidableEq

/-- A confirmation receipt from the chain client. -/
structure Receipt where
  blockNumber : Nat
  gasUsed : Nat
deriving DecidableEq

/-- The record pushed onto `this.deployments` for a fully deployed token
(deployTokens.js lines 570–582); `gasUsed` is the decimal string produced by
`receipt.gasUsed.toString()`. -/
structure DeploymentRecord where
  name : String
  symbol : String
  address : String
  decimals : Nat
  initialSupply : String
  mintable : Bool
  burnable : Bool
  pausable : Bool
  deploymentTx : String
  blockNumber : Nat
  gasUsed : String
deriving DecidableEq

/-- The report object serialized by `saveDeploymentReport`. -/
structure DeploymentReport where
  timestamp : String
  network : String
  deployer : String
  deployments : List DeploymentRecord
deriving DecidableEq

/-- Outcome oracles for the external chain client: gas estimation, creation
transaction submission, confirmation, and a confirmed ERC20 transfer. -/
structure ChainEnv where
  estimate : TokenDefinition → Except String Nat
  submit : TokenDefinition → Nat → Except String DeployedContract
  confirm : DeployedContract → Except String Receipt
  transfer : DeployedContract → String → Int → Except String Receipt

/-- An error aborting one token's deployment: a malformed decimal amount
(`ethers.parseUnits` throws) or an error reported by the chain client. -/
inductive DeployError where
  | parseFailure : DeployError
  | chain : String → DeployError
deriving DecidableEq

/-! ### Deployment orchestration (deployTokens.js) -/

/-- `TokenDeployer.estimateGas` (lines 502–525): scale the initial supply
(outside the `try`, so a malformed supply string propagates as `none`), ask
the chain client for an estimate, apply the +20% margin
`estimatedGas * 120n / 100n`, and fall back to the constant `3000000n` when
the estimation call fails. -/
def estimateGas (env : ChainEnv) (token : TokenDefinition) : Option Nat :=
  match parseUnits token.initialSupply token.decimals with
  | none => none
  | some _ =>
    match env.estimate token with
    | .ok g => some (g * 120 / 100)
    | .error _ => some 3000000

/-- `TokenDeployer.distributeTokens` (lines 587–598): one confirmed transfer
per initial holder, strictly in order, each amount scaled with
`ethers.parseUnits(holder.amount, token.decimals)`. -/
def distributeTokens (env : ChainEnv) (c : DeployedContract) (decimals : Nat) :
    List Holder → Except DeployError Unit
  | [] => .ok ()
  | h :: hs =>
    match parseUnits h.amount decimals with
    | none => .error .parseFailure
    | some amt =>
      match env.transfer c h.address amt with
      | .error msg => .error (.chain msg)
      | .ok _ => distributeTokens env c decimals hs

/-- The object pushed onto `this.deployments` (lines 570–582). -/
def mkDeploymentRecord (token : TokenDefinition) (c : DeployedContract)
    (receipt : Receipt) : DeploymentRecord :=
  { name := token.name
    symbol := token.symbol
    address := c.address
    decimals := token.decimals
    initialSupply := token.initialSupply
    mintable := token.mintable
    burnable := token.burnable
    pausable := token.pausable
    deploymentTx := c.txHash
    blockNumber := receipt.blockNumber
    gasUsed := natToDecimalString receipt.gasUsed }

/-- `TokenDeployer.deployToken` (lines 527–585) up to the push: scale the
supply, compute the gas limit, submit the creation transaction, wait for the
confirmation receipt, run the initial distribution when `initialHolders` is
nonempty, and produce the record together with the contract address. The
first failing step aborts the whole token. -/
def deployTokenCore (env : ChainEnv) (token : TokenDefinition) :
    Except DeployError (DeploymentRecord × String) :=
  match parseUnits token.initialSupply token.decimals with
  | none => .error .parseFailure
  | some _ =>
    match estimateGas env token with
    | none => .error .parseFailure
    | some gasLimit =>
      match env.submit token gasLimit with
      | .error msg => .error (.chain msg)
      | .ok c =>
        match env.confirm c with
        | .error msg => .error (.chain msg)
        | .ok receipt =>
          match
            (if token.initialHolders.isEmpty then Except.ok ()
             else distributeTokens env c token.decimals token.initialHolders)
          with
          | .error e => .error e
          | .ok _ => .ok (mkDeploymentRecord token c receipt, c.address)

/-- `deployToken` as seen from the loop in `deploy`: on success the record is
appended to the accumulated `this.deployments` list. -/
def deployToken (env : ChainEnv) (token : TokenDefinition)
    (recs : List DeploymentRecord) :
    Except DeployError (List DeploymentRecord × String) :=
  match deployTokenCore env token with
  | .error e => .error e
  | .ok (r, addr) => .ok (recs ++ [r], addr)

/-- The `for (const token of config.tokens)` loop of `TokenDeployer.deploy`
(lines 669–680): on a failed token, continue with the next definition when
`continueOnError` is set, otherwise abort the run, keeping the records
accumulated so far and surfacing the error. -/
def runTokens (env : ChainEnv) (continueOnError : Bool) :
    List TokenDefinition → List DeploymentRecord →
    List DeploymentRecord × Option DeployError
  | [], recs => (recs, none)
  | token :: rest, recs =>
    match deployToken env token recs with
    | .ok (recs2, _) => runTokens env continueOnError rest recs2
    | .error e =>
      if continueOnError then runTokens env continueOnError rest recs
      else (recs, some e)

/-- `deployAll`: run the loop from an empty record list. -/
def deployAll (env : ChainEnv) (continueOnError : Bool)
    (tokens : List TokenDefinition) :
    List DeploymentRecord × Option DeployError :=
  runTokens env continueOnError tokens []

/-- Specification-level description of the records a run accumulates: each
fully successful token contributes exactly its one record, a failed token
contributes nothing, and with `continueOnError` unset the first failure
discards every later token. -/
def collectedRecords (env : ChainEnv) (continueOnError : Bool) :
    List TokenDefinition → List DeploymentRecord
  | [] => []
  | token :: rest =>
    match deployTokenCore env token with
    | .ok (r, _) => r :: collectedRecords env continueOnError rest
    | .error _ =>
      if continueOnError then collectedRecords env continueOnError rest
      else []

/-! ### The address map (deployTokens.js lines 635–646) -/

/-- The value stored under a symbol in `latest-addresses.json`. -/
structure AddressEntry where
  address : String
  decimals : Nat
deriving DecidableEq

/-- Replace the binding of key `k` by the value `v`, leaving other bindings
alone (the in-place half of a JavaScript property assignment). -/
def overwriteEntry (k : String) (v : AddressEntry) :
    String × AddressEntry → String × AddressEntry
  | (a, b) => if a = k then (k, v) else (a, b)

/-- JavaScript property assignment `map[k] = v` on an object modelled as an
insertion-ordered association list: an existing key keeps its position and
has its value overwritten, a new key is appended. -/
def jsSet (m : List (String × AddressEntry)) (k : String) (v : AddressEntry) :
    List (String × AddressEntry) :=
  if m.any (fun p => p.1 = k) then m.map (overwriteEntry k v)
  else m ++ [(k, v)]

/-- JavaScript property access `map[s]` on an object modelled as an
association list. -/
def jsLookup : List (String × AddressEntry) → String → Option AddressEntry
  | [], _ => none
  | (k, v) :: rest, s => if s = k then some v else jsLookup rest s

/-- The `addressMap` accumulation of `saveDeploymentReport`:
`this.deployments.forEach(d => { addressMap[d.symbol] = {address, decimals} })`. -/
def buildAddressMap (recs : List DeploymentRecord) :
    List (String × AddressEntry) :=
  recs.foldl (fun m d => jsSet m d.symbol ⟨d.address, d.decimals⟩) []

/-! ### JSON values

`JSON.stringify`/`JSON.parse` of the JavaScript runtime are external
builtins; they are modelled at the level of JSON values. The numbers written
by this repository (`decimals`, `blockNumber`) are non-negative integers. -/

inductive Json where
  | str : String → Json
  | num : Nat → Json
  | bool : Bool → Json
  | arr : List Json → Json
  | obj : List (String × Json) → Json

/-- Field access on a decoded JSON object. -/
def jsonField : List (String × Json) → String → Option Json
  | [], _ => none
  | (k, v) :: rest, s => if s = k then some v else jsonField rest s

def Json.getField : Json → String → Option Json
  | .obj fields, k => jsonField fields k
  | _, _ => none

def Json.asStr : Json → Option String
  | .str s => some s
  | _ => none

def Json.asNum : Json → Option Nat
  | .num n => some n
  | _ => none

def Json.asBool : Json → Option Bool
  | .bool b => some b
  | _ => none

def Json.asArr : Json → Option (List Json)
  | .arr xs => some xs
  | _ => none

/-- Serialization of one deployment record, field for field as pushed by
`deployToken` and written by `saveDeploymentReport`. -/
def recordToJson (r : DeploymentRecord) : Json :=
  .obj [("name", .str r.name), ("symbol", .str r.symbol),
        ("address", .str r.address), ("decimals", .num r.decimals),
        ("initialSupply", .str r.initialSupply), ("mintable", .bool r.mintable),
        ("burnable", .bool r.burnable), ("pausable", .bool r.pausable),
        ("deploymentTx", .str r.deploymentTx),
        ("blockNumber", .num r.blockNumber), ("gasUsed", .str r.gasUsed)]

/-- Reloading one deployment record from its JSON value (the field accesses
performed by a reader of the report file, e.g. verifyContracts.js). -/
def recordOfJson (j : Json) : Option DeploymentRecord := do
  let name ← (j.getField "name").bind Json.asStr
  let symbol ← (j.getField "symbol").bind Json.asStr
  let address ← (j.getField "address").bind Json.asStr
  let decimals ← (j.getField "decimals").bind Json.asNum
  let initialSupply ← (j.getField "initialSupply").bind Json.asStr
  let mintable ← (j.getField "mintable").bind Json.asBool
  let burnable ← (j.getField "burnable").bind Json.asBool
  let pausable ← (j.getField "pausable").bind Json.asBool
  let deploymentTx ← (j.getField "deploymentTx").bind Json.asStr
  let blockNumber ← (j.getField "blockNumber").bind Json.asNum
  let gasUsed ← (j.getField "gasUsed").bind Json.asStr
  pure ⟨name, symbol, address, decimals, initialSupply, mintable, burnable,
        pausable, deploymentTx, blockNumber, gasUsed⟩

/-- Decode every element of a JSON array. -/
def jsonList (f : Json → Option α) : List Json → Option (List α)
  | [] => some []
  | j :: js =>
    match f j, jsonList f js with
    | some a, some rest => some (a :: rest)
    | _, _ => none

/-- Serialization of the whole report object (lines 625–630). -/
def reportToJson (rep : DeploymentReport) : Json :=
  .obj [("timestamp", .str rep.timestamp), ("network", .str rep.network),
        ("deployer", .str rep.deployer),
        ("deployments", .arr (rep.deployments.map recordToJson))]

/-- Reloading the whole report from its JSON value. -/
def reportOfJson (j : Json) : Option DeploymentReport := do
  let timestamp ← (j.getField "timestamp").bind Json.asStr
  let network ← (j.getField "network").bind Json.asStr
  let deployer ← (j.getField "deployer").bind Json.asStr
  let deployments ← ((j.getField "deployments").bind Json.asArr).bind
    (jsonList recordOfJson)
  pure ⟨timestamp, network, deployer, deployments⟩

/-- Serialization of the `latest-addresses.json` map. -/
def addressMapToJson (m : List (String × AddressEntry)) : Json :=
  .obj (m.map fun p =>
    (p.1, .obj [("address", .str p.2.address), ("decimals", .num p.2.decimals)]))

/-! ### Report writing (deployTokens.js lines 616–646 and 687–707) -/

/-- The persisted state, as a map from path to the JSON value written there. -/
def FileState : Type :=
  String → Option Json

/-- `fs.writeFileSync` at the JSON-value level. -/
def writeJsonFile (fs : FileState) (p : String) (v : Json) : FileState :=
  fun q => if q = p then some v else fs q

def latestAddressesPath : String :=
  "deployments/latest-addresses.json"

def reportFilePath (network timestampName : String) : String :=
  "deployments/deployment-" ++ network ++ "-" ++ timestampName ++ ".json"

/-- `TokenDeployer.saveDeploymentReport` (lines 616–646): write the
timestamped full report, then overwrite `latest-addresses.json` with the
symbol → {address, decimals} map built from `this.deployments`. -/
def saveDeploymentReport (fs : FileState) (network timestampName : String)
    (rep : DeploymentReport) : FileState :=
  writeJsonFile
    (writeJsonFile fs (reportFilePath network timestampName) (reportToJson rep))
    latestAddressesPath
    (addressMapToJson (buildAddressMap rep.deployments))

/-- The summary step of `TokenDeployer.deploy` (lines 687–707): the report
files are written only when `this.deployments.length > 0`. -/
def finalizeRun (fs : FileState) (network timestampIso timestampName deployer : String)
    (recs : List DeploymentRecord) : FileState :=
  if recs.length > 0 then
    saveDeploymentReport fs network timestampName
      ⟨timestampIso, network, deployer, recs⟩
  else fs

/-! ### Verification status polling (verifyContracts.js lines 115–142) -/

/-- The response body of the explorer status endpoint. -/
structure StatusResponse where
  status : String
  result : String
deriving DecidableEq

/-- What one `axios.get` of the status endpoint does: deliver a response or
throw (network error). -/
inductive PollEvent where
  | response : StatusResponse → PollEvent
  | exception : PollEvent
deriving DecidableEq

/-- The value returned by `checkVerificationStatus`. -/
inductive VerifyOutcome where
  | success : VerifyOutcome
  | failure : String → VerifyOutcome
deriving DecidableEq

/-- The `for (let i = 0; i < attempts; i++)` loop of
`ContractVerifier.checkVerificationStatus`, started at poll index `i` with
`fuel` attempts left; returns the outcome and the total number of status
polls made. A `status === '1'` response is success, a
`result === 'Pending in queue'` response keeps polling, any other response is
a terminal failure with the response's `result`, a thrown request is caught
and polling continues; an exhausted loop is the `'Verification timeout'`
failure. -/
def checkFrom (oracle : Nat → PollEvent) : Nat → Nat → VerifyOutcome × Nat
  | i, 0 => (.failure "Verification timeout", i)
  | i, fuel + 1 =>
    match oracle i with
    | .exception => checkFrom oracle (i + 1) fuel
    | .response r =>
      if r.status = "1" then (.success, i + 1)
      else if r.result = "Pending in queue" then checkFrom oracle (i + 1) fuel
      else (.failure r.result, i + 1)

/-- `checkVerificationStatus(guid)` with its fixed default of 30 attempts. -/
def checkVerificationStatus (oracle : Nat → PollEvent) : VerifyOutcome × Nat :=
  checkFrom oracle 0 30

/-! ### Role resolution (interactWithTokens.js lines 154–184) -/

/-- The values the deployed contract returns from its on-chain role lookup
functions `MINTER_ROLE()`, `PAUSER_ROLE()` and `DEFAULT_ADMIN_ROLE()`. -/
structure RoleOracle where
  minterRole : String
  pauserRole : String
  defaultAdminRole : String
deriving DecidableEq

/-- The `switch (role.toUpperCase())` of `TokenInteractor.grantRole`: the
hash passed on to `grantRole(roleHash, account)`. -/
def resolveRoleHash (c : RoleOracle) (role : String) : String :=
  if jsToUpper role = "MINTER" then c.minterRole
  else if jsToUpper role = "PAUSER" then c.pauserRole
  else if jsToUpper role = "ADMIN" then c.defaultAdminRole
  else role

/-! ### Concrete sample data used by the witnesses -/

/-- A minimal valid token definition with the given symbol. -/
def sampleToken (sym : String) : TokenDefinition :=
  ⟨sym ++ " Token", sym, 0, "1", false, false, false, []⟩

def sampleContract : DeployedContract :=
  ⟨"0xADDR", "0xTX"⟩

def sampleReceipt : Receipt :=
  ⟨7, 42⟩

/-- A chain client on which every deployment succeeds except for the token
with symbol `"B"`, whose creation transaction submission fails. -/
def sampleEnv : ChainEnv :=
  { estimate := fun _ => .ok 100
    submit := fun t _ => if t.symbol = "B" then .error "boom" else .ok sampleContract
    confirm := fun _ => .ok sampleReceipt
    transfer := fun _ _ _ => .ok sampleReceipt }

/-- A chain client whose gas estimation call always fails. -/
def failEstimateEnv : ChainEnv :=
  { sampleEnv with estimate := fun _ => .error "nope" }

def pendingResponse : StatusResponse :=
  ⟨"0", "Pending in queue"⟩

def verifiedResponse : StatusResponse :=
  ⟨"1", "Pass - Verified"⟩

/-- A status endpoint that is pending forever. -/
def pendingOracle : Nat → PollEvent :=
  fun _ => .response pendingResponse

/-- A status endpoint that answers pending twice and then success. -/
def pendingTwiceOracle : Nat → PollEvent :=
  fun i => if i < 2 then .response pendingResponse else .response verifiedResponse

/-- A status endpoint whose first two requests throw and whose third answers
success. -/
def throwTwiceOracle : Nat → PollEvent :=
  fun i => if i < 2 then .exception else .response verifiedResponse

def sampleRoleOracle : RoleOracle :=
  ⟨"0xMR", "0xPR", "0x00"⟩

/-- The record produced for `sampleToken "A"` on `sampleEnv`. -/
def recA : DeploymentRecord :=
  mkDeploymentRecord (sampleToken "A") sampleContract sampleReceipt

/-- The record produced for `sampleToken "C"` on `sampleEnv`. -/
def recC : DeploymentRecord :=
  mkDeploymentRecord (sampleToken "C") sampleContract sampleReceipt

/-! ## Theorems -/

/-- Poll-count lower bound: the loop started at poll index `i` never reports
fewer than `i` polls. -/
theorem checkFrom_le_polls (oracle : Nat → PollEvent) :
    ∀ (fuel i : Nat), i ≤ (checkFrom oracle i fuel).2 := by
  intro fuel
  induction fuel with
  | zero => intro i; simp [checkFrom]
  | succ n ih =>
    intro i
    simp only [checkFrom]
    cases oracle i with
    | exception => exact le_trans (Nat.le_succ i) (ih (i + 1))
    | response r =>
      by_cases h1 : r.status = "1"
      · simp [h1]
      · by_cases h2 : r.result = "Pending in queue"
        · simp only [h1, h2, if_false, if_true, if_neg, if_pos]
          exact le_trans (Nat.le_succ i) (ih (i + 1))
        · simp [h1, h2]

/-- With at least one attempt left, the loop makes at least one more poll. -/
theorem checkFrom_lt_polls (oracle : Nat → PollEvent) :
    ∀ (fuel i : Nat), 0 < fuel → i < (checkFrom oracle i fuel).2 := by
  intro fuel i hfuel
  cases fuel with
  | zero => exact absurd hfuel (lt_irrefl 0)
  | succ n =>
    simp only [checkFrom]
    cases oracle i with
    | exception => exact lt_of_lt_of_le (Nat.lt_succ_self i) (checkFrom_le_polls oracle n (i + 1))
    | response r =>
      by_cases h1 : r.status = "1"
      · simp [h1]
      · by_cases h2 : r.result = "Pending in queue"
        · simp only [h1, h2, if_false, if_true, if_neg, if_pos]
          exact lt_of_lt_of_le (Nat.lt_succ_self i) (checkFrom_le_polls oracle n (i + 1))
        · simp [h1, h2]

/-- C6: against a status endpoint that answers pending twice and then
success, `checkVerificationStatus` returns success after exactly 3 polls;
against a permanently pending endpoint it returns the timeout failure after
the fixed ceiling of 30 polls; and, given that a poll receives a response
with at least one attempt to spare, the loop keeps polling beyond that poll
exactly when the response is the pending one. -/
theorem verifyContract_polling :
    checkVerificationStatus pendingTwiceOracle = (.success, 3)
    ∧ checkVerificationStatus pendingOracle
        = (.failure "Verification timeout", 30)
    ∧ (∀ (oracle : Nat → PollEvent) (i fuel : Nat) (r : StatusResponse),
        oracle i = PollEvent.response r →
        (i + 2 ≤ (checkFrom oracle i (fuel + 2)).2 ↔
          (¬ r.status = "1" ∧ r.result = "Pending in queue"))) := by
  refine ⟨by decide, by decide, ?_⟩
  intro oracle i fuel r hr
  constructor
  · intro hle
    by_cases h1 : r.status = "1"
    · exfalso
      simp only [checkFrom, hr, h1, if_pos, if_true] at hle
      omega
    · by_cases h2 : r.result = "Pending in queue"
      · exact ⟨h1, h2⟩
      · exfalso
        simp only [checkFrom, hr] at hle
        rw [if_neg h1, if_neg h2] at hle
        omega
  · rintro ⟨h1, h2⟩
    have hstep : checkFrom oracle i (fuel + 2) = checkFrom oracle (i + 1) (fuel + 1) := by
      simp only [checkFrom, hr]
      rw [if_neg h1, if_pos h2]
    rw [hstep]
    exact checkFrom_lt_polls oracle (fuel + 1) (i + 1) (Nat.succ_pos _)

/-- Closed instance of `verifyContract_polling`: on the permanently pending
endpoint the first response keeps the loop polling past the first attempt. -/
theorem verifyContract_polling_witness :
    0 + 2 ≤ (checkFrom pendingOracle 0 (28 + 2)).2 :=
  (verifyContract_polling.2.2 pendingOracle 0 28 pendingResponse rfl).mpr
    ⟨by decide, rfl⟩

/-- C9: a thrown status request is caught, consumes exactly one of the
attempts and polling continues; an endpoint that always throws exhausts all
30 attempts and reports the timeout failure; an endpoint that throws twice
and then answers success yields success on the third poll. -/
theorem polling_exception_continues :
    (∀ (oracle : Nat → PollEvent) (i fuel : Nat),
        oracle i = PollEvent.exception →
        checkFrom oracle i (fuel + 1) = checkFrom oracle (i + 1) fuel)
    ∧ checkVerificationStatus (fun _ => PollEvent.exception)
        = (.failure "Verification timeout", 30)
    ∧ checkVerificationStatus throwTwiceOracle = (.success, 3) := by
  refine ⟨?_, by decide, by decide⟩
  intro oracle i fuel h
  simp [checkFrom, h]

/-- Closed instance of `polling_exception_continues`: one caught exception
reduces the remaining attempts by one. -/
theorem polling_exception_continues_witness :
    checkFrom (fun _ => PollEvent.exception) 0 (0 + 1)
      = checkFrom (fun _ => PollEvent.exception) 1 0 :=
  polling_exception_continues.1 (fun _ => PollEvent.exception) 0 0 rfl

/-- C10: when the accumulated record list is empty the summary step writes
nothing at all — the file state is untouched, and in particular a previously
existing `latest-addresses.json` keeps its old contents. -/
theorem empty_run_writes_nothing :
    ∀ (fs : FileState) (network tsIso tsName deployer : String),
      finalizeRun fs network tsIso tsName deployer [] = fs
      ∧ finalizeRun fs network tsIso tsName deployer [] latestAddressesPath
          = fs latestAddressesPath := by
  intro fs network tsIso tsName deployer
  constructor <;> simp [finalizeRun]

/-- C4: whenever the supply string scales (so `estimateGas` is reached with a
well-formed argument tuple), a successful estimate `g` yields the gas limit
`g * 120 / 100` (integer division, truncating), a failed estimation call
yields the fixed default `3000000`, and `estimateGas` never fails. -/
theorem estimateGas_margin_and_fallback :
    ∀ (env : ChainEnv) (token : TokenDefinition),
      (parseUnits token.initialSupply token.decimals).isSome →
        (∀ g : Nat, env.estimate token = .ok g →
            estimateGas env token = some (g * 120 / 100))
        ∧ (∀ msg : String, env.estimate token = .error msg →
            estimateGas env token = some 3000000)
        ∧ (estimateGas env token).isSome := by
  intro env token hparse
  obtain ⟨v, hv⟩ := Option.isSome_iff_exists.mp hparse
  refine ⟨?_, ?_, ?_⟩
  · intro g hg
    simp [estimateGas, hv, hg]
  · intro msg hmsg
    simp [estimateGas, hv, hmsg]
  · cases he : env.estimate token <;> simp [estimateGas, hv, he]

/-- Closed instance of `estimateGas_margin_and_fallback`: an estimate of 100
yields the gas limit 120, and a failing estimation call yields 3000000. -/
theorem estimateGas_margin_and_fallback_witness :
    estimateGas sampleEnv (sampleToken "A") = some 120
    ∧ estimateGas failEstimateEnv (sampleToken "A") = some 3000000 :=
  ⟨(estimateGas_margin_and_fallback sampleEnv (sampleToken "A") rfl).1 100 rfl,
   (estimateGas_margin_and_fallback failEstimateEnv (sampleToken "A") rfl).2.1
     "nope" rfl⟩

/-- C8, counterexample: the claim passes every role string other than
`MINTER`, `PAUSER` and `ADMIN` through verbatim, but the source uppercases
first: `"minter"` is not one of the three listed strings, yet it resolves to
the contract's `MINTER_ROLE()` value instead of being passed through. -/
theorem grantRole_lowercase_not_verbatim :
    resolveRoleHash sampleRoleOracle "minter" = sampleRoleOracle.minterRole
    ∧ resolveRoleHash sampleRoleOracle "minter" ≠ "minter" := by
  constructor <;> decide

/-- C8 (amended): a role string whose uppercasing is `MINTER`, `PAUSER` or
`ADMIN` resolves to the value returned by the contract's corresponding
lookup function (`MINTER_ROLE`, `PAUSER_ROLE`, `DEFAULT_ADMIN_ROLE`) —
whatever that value is, i.e. no client-side constant — and a role string
whose uppercasing is none of the three is passed through verbatim. -/
theorem grantRole_role_resolution :
    ∀ (c : RoleOracle) (role : String),
      (jsToUpper role = "MINTER" → resolveRoleHash c role = c.minterRole)
      ∧ (jsToUpper role = "PAUSER" → resolveRoleHash c role = c.pauserRole)
      ∧ (jsToUpper role = "ADMIN" → resolveRoleHash c role = c.defaultAdminRole)
      ∧ (jsToUpper role ≠ "MINTER" → jsToUpper role ≠ "PAUSER" →
          jsToUpper role ≠ "ADMIN" → resolveRoleHash c role = role) := by
  intro c role
  refine ⟨fun h => ?_, fun h => ?_, fun h => ?_, fun h1 h2 h3 => ?_⟩
  · simp [resolveRoleHash, h]
  · simp [resolveRoleHash, h]
  · simp [resolveRoleHash, h]
  · simp [resolveRoleHash, h1, h2, h3]

/-- Closed instance of `grantRole_role_resolution`: a mixed-case `MiNtEr`
resolves through the contract lookup, and an unrelated hex string passes
through verbatim. -/
theorem grantRole_role_resolution_witness :
    resolveRoleHash sampleRoleOracle "MiNtEr" = "0xMR"
    ∧ resolveRoleHash sampleRoleOracle "0xdeadbeef" = "0xdeadbeef" :=
  ⟨(grantRole_role_resolution sampleRoleOracle "MiNtEr").1 rfl,
   (grantRole_role_resolution sampleRoleOracle "0xdeadbeef").2.2.2
     (by decide) (by decide) (by decide)⟩

/-- C1: over three token definitions whose second fails, the run with
`continueOnError` unset aborts at the failure, surfacing it, with exactly the
first token's record accumulated; the run with it set proceeds and
accumulates the first and third tokens' records. -/
theorem deployAll_second_failure :
    ∀ (env : ChainEnv) (t1 t2 t3 : TokenDefinition)
      (r1 r3 : DeploymentRecord) (a1 a3 : String) (e : DeployError),
      deployTokenCore env t1 = .ok (r1, a1) →
      deployTokenCore env t2 = .error e →
      deployTokenCore env t3 = .ok (r3, a3) →
      deployAll env false [t1, t2, t3] = ([r1], some e)
      ∧ deployAll env true [t1, t2, t3] = ([r1, r3], none) := by
  intro env t1 t2 t3 r1 r3 a1 a3 e h1 h2 h3
  constructor <;> simp [deployAll, runTokens, deployToken, h1, h2, h3]

/-- Closed instance of `deployAll_second_failure` on `sampleEnv`, where the
middle token's creation transaction fails. -/
theorem deployAll_second_failure_witness :
    deployAll sampleEnv false [sampleToken "A", sampleToken "B", sampleToken "C"]
      = ([recA], some (.chain "boom"))
    ∧ deployAll sampleEnv true [sampleToken "A", sampleToken "B", sampleToken "C"]
      = ([recA, recC], none) :=
  deployAll_second_failure sampleEnv (sampleToken "A") (sampleToken "B")
    (sampleToken "C") recA recC "0xADDR" "0xADDR" (.chain "boom") rfl rfl rfl

/-- C3: the record list accumulated by the deployment loop is exactly the
initial list extended by one complete record per fully successful token — a
token any of whose steps failed contributes nothing, so the accumulated list
is unchanged by a failed token. -/
theorem failed_token_appends_no_record :
    (∀ (env : ChainEnv) (c : Bool) (tokens : List TokenDefinition)
        (recs : List DeploymentRecord),
        (runTokens env c tokens recs).1 = recs ++ collectedRecords env c tokens)
    ∧ (∀ (env : ChainEnv) (c : Bool) (t : TokenDefinition)
        (rest : List TokenDefinition) (recs : List DeploymentRecord)
        (e : DeployError),
        deployTokenCore env t = .error e →
        (runTokens env c (t :: rest) recs).1 =
          if c then (runTokens env c rest recs).1 else recs) := by
  constructor
  · intro env c tokens
    induction tokens with
    | nil => intro recs; simp [runTokens, collectedRecords]
    | cons t ts ih =>
      intro recs
      cases h : deployTokenCore env t with
      | ok pr =>
        obtain ⟨r, addr⟩ := pr
        simp [runTokens, deployToken, collectedRecords, h, ih]
      | error e =>
        cases c <;> simp [runTokens, deployToken, collectedRecords, h, ih]
  · intro env c t rest recs e h
    cases c <;> simp [runTokens, deployToken, h]

/-- Closed instance of `failed_token_appends_no_record`: the failed token
`"B"` leaves the accumulated list `[recA]` unchanged. -/
theorem failed_token_appends_no_record_witness :
    (runTokens sampleEnv true [sampleToken "B"] [recA]).1 =
      if true then (runTokens sampleEnv true [] [recA]).1 else [recA] :=
  failed_token_appends_no_record.2 sampleEnv true (sampleToken "B") [] [recA]
    (.chain "boom") rfl

/-- Looking up the overwritten key after the in-place overwrite pass of
`jsSet` finds the new value exactly when the key was present. -/
theorem jsLookup_overwrite_self (k : String) (v : AddressEntry) :
    ∀ m : List (String × AddressEntry),
      jsLookup (m.map (overwriteEntry k v)) k
        = if m.any (fun p => p.1 = k) then some v else none := by
  intro m
  induction m with
  | nil => rfl
  | cons p rest ih =>
    obtain ⟨a, b⟩ := p
    simp only [List.map_cons, List.any_cons, overwriteEntry]
    by_cases h : a = k
    · subst h
      rw [if_pos rfl]
      simp [jsLookup, ih]
    · rw [if_neg h]
      have h' : ¬ k = a := fun hh => h hh.symm
      simp only [decide_eq_false h, Bool.false_or]
      simp [jsLookup, h', ih]

/-- The overwrite pass of `jsSet` leaves every other key's binding alone. -/
theorem jsLookup_overwrite_ne (k : String) (v : AddressEntry) (s : String)
    (hs : s ≠ k) :
    ∀ m : List (String × AddressEntry),
      jsLookup (m.map (overwriteEntry k v)) s = jsLookup m s := by
  intro m
  induction m with
  | nil => rfl
  | cons p rest ih =>
    obtain ⟨a, b⟩ := p
    simp only [List.map_cons, overwriteEntry]
    by_cases h : a = k
    · subst h
      rw [if_pos rfl]
      simp [jsLookup, hs, ih]
    · rw [if_neg h]
      simp [jsLookup, ih]

/-- Appending a fresh binding at the end does not shadow earlier keys. -/
theorem jsLookup_append_ne (k : String) (v : AddressEntry) (s : String)
    (hs : s ≠ k) :
    ∀ m : List (String × AddressEntry),
      jsLookup (m ++ [(k, v)]) s = jsLookup m s := by
  intro m
  induction m with
  | nil => simp [jsLookup, hs]
  | cons p rest ih =>
    obtain ⟨a, b⟩ := p
    by_cases h : s = a
    · simp [jsLookup, h]
    · simp [jsLookup, h, ih]

/-- Appending a binding whose key is absent makes it findable. -/
theorem jsLookup_append_self (k : String) (v : AddressEntry) :
    ∀ m : List (String × AddressEntry), (∀ p ∈ m, ¬ p.1 = k) →
      jsLookup (m ++ [(k, v)]) k = some v := by
  intro m
  induction m with
  | nil => intro _; simp [jsLookup]
  | cons p rest ih =>
    intro hk
    obtain ⟨a, b⟩ := p
    have ha : ¬ (a = k) := hk (a, b) (List.mem_cons_self _ _)
    have ha' : ¬ k = a := fun hh => ha hh.symm
    simp only [List.cons_append, jsLookup, if_neg ha']
    exact ih fun p hp => hk p (List.mem_cons_of_mem _ hp)

/-- `jsSet` binds its key to its value. -/
theorem jsLookup_jsSet_self (m : List (String × AddressEntry)) (k : String)
    (v : AddressEntry) : jsLookup (jsSet m k v) k = some v := by
  by_cases hany : m.any (fun p => p.1 = k)
  · simp only [jsSet, if_pos hany]
    rw [jsLookup_overwrite_self, if_pos hany]
  · simp only [jsSet, if_neg hany]
    refine jsLookup_append_self k v m ?_
    intro p hp
    simp only [List.any_eq_true, decide_eq_true_eq, not_exists] at hany
    exact fun hpe => hany p ⟨hp, hpe⟩

/-- `jsSet` leaves every other key's binding alone. -/
theorem jsLookup_jsSet_ne (m : List (String × AddressEntry)) (k : String)
    (v : AddressEntry) (s : String) (hs : s ≠ k) :
    jsLookup (jsSet m k v) s = jsLookup m s := by
  by_cases hany : m.any (fun p => p.1 = k)
  · simp only [jsSet, if_pos hany]
    exact jsLookup_overwrite_ne k v s hs m
  · simp only [jsSet, if_neg hany]
    exact jsLookup_append_ne k v s hs m

/-- The key list after `jsSet`: unchanged when the key was present, extended
by the new key at the end otherwise. -/
theorem jsSet_keys (m : List (String × AddressEntry)) (k : String)
    (v : AddressEntry) :
    (jsSet m k v).map Prod.fst =
      if m.any (fun p => p.1 = k) then m.map Prod.fst
      else m.map Prod.fst ++ [k] := by
  by_cases hany : m.any (fun p => p.1 = k)
  · simp only [jsSet, if_pos hany, List.map_map]
    refine List.map_congr_left ?_
    intro p _
    obtain ⟨a, b⟩ := p
    simp only [Function.comp, overwriteEntry]
    by_cases h : a = k
    · subst h
      rw [if_pos rfl]
    · rw [if_neg h]
  · simp [jsSet, if_neg hany]

/-- One step of the `forEach` accumulation. -/
theorem buildAddressMap_concat (recs : List DeploymentRecord)
    (d : DeploymentRecord) :
    buildAddressMap (recs ++ [d])
      = jsSet (buildAddressMap recs) d.symbol ⟨d.address, d.decimals⟩ := by
  simp [buildAddressMap, List.foldl_concat]

/-- The key list of the accumulated address map never repeats a symbol. -/
theorem buildAddressMap_keys_nodup :
    ∀ recs : List DeploymentRecord,
      ((buildAddressMap recs).map Prod.fst).Nodup := by
  intro recs
  induction recs using List.reverseRecOn with
  | nil => simp [buildAddressMap]
  | append_singleton recs d ih =>
    rw [buildAddressMap_concat, jsSet_keys]
    by_cases hany : (buildAddressMap recs).any (fun p => p.1 = d.symbol)
    · simpa [hany] using ih
    · have hnot : d.symbol ∉ (buildAddressMap recs).map Prod.fst := by
        simp only [List.any_eq_true, decide_eq_true_eq, not_exists] at hany
        simp only [List.mem_map, not_exists]
        exact hany
      simp [hany, List.nodup_append, ih, hnot]

/-- The accumulated address map binds a symbol to the address and decimals
of the last record carrying that symbol. -/
theorem buildAddressMap_lookup (s : String) :
    ∀ recs : List DeploymentRecord,
      jsLookup (buildAddressMap recs) s
        = ((recs.filter fun d => d.symbol = s).getLast?).map
            (fun d => AddressEntry.mk d.address d.decimals) := by
  intro recs
  induction recs using List.reverseRecOn with
  | nil => rfl
  | append_singleton recs d ih =>
    rw [buildAddressMap_concat, List.filter_append]
    by_cases hs : d.symbol = s
    · subst hs
      rw [jsLookup_jsSet_self]
      simp
    · have hs' : s ≠ d.symbol := fun hh => hs hh.symm
      rw [jsLookup_jsSet_ne _ _ _ _ hs']
      simp [hs, ih]

/-- C5: after any run the address map has exactly one entry per distinct
symbol of the deployed records — its key list never repeats and a symbol is
present exactly when some record carries it — and the entry found under a
symbol is the address and decimals of the last-processed record with that
symbol (last write wins on a duplicate symbol). -/
theorem addressMap_last_write_wins :
    ∀ (recs : List DeploymentRecord) (s : String),
      ((buildAddressMap recs).map Prod.fst).Nodup
      ∧ jsLookup (buildAddressMap recs) s
          = ((recs.filter fun d => d.symbol = s).getLast?).map
              (fun d => AddressEntry.mk d.address d.decimals)
      ∧ ((jsLookup (buildAddressMap recs) s).isSome ↔
          s ∈ recs.map fun d => d.symbol) := by
  intro recs s
  refine ⟨buildAddressMap_keys_nodup recs, buildAddressMap_lookup s recs, ?_⟩
  rw [buildAddressMap_lookup s recs]
  constructor
  · intro hsome
    rcases hlast : (recs.filter fun d => d.symbol = s).getLast? with _ | d
    · rw [hlast] at hsome
      simp at hsome
    · have hd : d ∈ recs.filter fun d => d.symbol = s :=
        List.mem_of_mem_getLast? (by rw [hlast]; exact rfl)
      rw [List.mem_filter] at hd
      refine List.mem_map.mpr ⟨d, hd.1, ?_⟩
      exact of_decide_eq_true hd.2
  · intro hmem
    obtain ⟨d, hd, hds⟩ := List.mem_map.mp hmem
    have hdf : d ∈ recs.filter fun d => d.symbol = s :=
      List.mem_filter.mpr ⟨hd, decide_eq_true hds⟩
    have hne : (recs.filter fun d => d.symbol = s) ≠ [] :=
      List.ne_nil_of_mem hdf
    have : ((recs.filter fun d => d.symbol = s).getLast?).isSome :=
      List.getLast?_isSome.mpr hne
    obtain ⟨a, ha⟩ := Option.isSome_iff_exists.mp this
    rw [ha]
    exact rfl

/-- C2: the scaling used for the constructor argument and for each holder
transfer is exact: scaling `"0.1"` by 18 decimals gives exactly
`100000000000000000`; every value `v` produced by `parseUnits s d` satisfies
`v = s * 10 ^ d` as rational numbers (zero fractional loss, no floating
point); and every well-formed decimal string with at most `d` fractional
digits scales successfully. -/
theorem parseUnits_exact :
    parseUnits "0.1" 18 = some 100000000000000000
    ∧ (∀ (s : String) (d : Nat) (v : Int),
        parseUnits s d = some v →
        ∃ q : ℚ, decValue s = some q ∧ (v : ℚ) = q * 10 ^ d)
    ∧ (∀ (s : String) (d : Nat),
        (decValue s).isSome → fracDigits s ≤ d → (parseUnits s d).isSome) := by
  refine ⟨rfl, ?_, ?_⟩
  · intro s d v hv
    unfold parseUnits at hv
    cases hsplit : splitDecimal s.data with
    | none =>
      rw [hsplit] at hv
      cases hv
    | some t =>
      obtain ⟨neg, whole, frac⟩ := t
      rw [hsplit] at hv
      dsimp only at hv
      by_cases hd : d < frac.length
      · rw [if_pos hd] at hv
        cases hv
      · rw [if_neg hd] at hv
        have hL : frac.length ≤ d := Nat.le_of_not_lt hd
        have hv' := (Option.some.inj hv).symm
        have hpow : (10 : ℚ) ^ (d - frac.length) * 10 ^ frac.length
            = 10 ^ d := by
          rw [← pow_add, Nat.sub_add_cancel hL]
        have h10 : ((10 : ℚ) ^ frac.length) ≠ 0 := by positivity
        have key : ((digitsToNat whole * 10 ^ d
              + digitsToNat frac * 10 ^ (d - frac.length) : Nat) : ℚ)
            = ((digitsToNat whole : ℚ)
                + (digitsToNat frac : ℚ) / 10 ^ frac.length) * 10 ^ d := by
          push_cast
          field_simp
          linear_combination (digitsToNat frac : ℚ) * hpow
        cases neg with
        | false =>
          refine ⟨(digitsToNat whole : ℚ)
              + (digitsToNat frac : ℚ) / 10 ^ frac.length, ?_, ?_⟩
          · simp [decValue, hsplit]
          · rw [hv']
            push_cast [key]
            push_cast at key
            exact key
        | true =>
          refine ⟨-((digitsToNat whole : ℚ)
              + (digitsToNat frac : ℚ) / 10 ^ frac.length), ?_, ?_⟩
          · simp [decValue, hsplit]
          · rw [hv']
            push_cast at key ⊢
            rw [neg_mul]
            exact congrArg Neg.neg key
  · intro s d hsome hfrac
    cases hsplit : splitDecimal s.data with
    | none =>
      rw [decValue, hsplit] at hsome
      cases hsome
    | some t =>
      obtain ⟨neg, whole, frac⟩ := t
      have hfrac' : frac.length ≤ d := by
        rw [fracDigits, hsplit] at hfrac
        exact hfrac
      unfold parseUnits
      rw [hsplit]
      dsimp only
      rw [if_neg (Nat.not_lt.mpr hfrac')]
      exact rfl

/-- Closed instance of `parseUnits_exact`: the scaled value of `"0.1"` at 18
decimals is exactly the rational `0.1 * 10 ^ 18`. -/
theorem parseUnits_exact_witness :
    ∃ q : ℚ, decValue "0.1" = some q
      ∧ ((100000000000000000 : Int) : ℚ) = q * 10 ^ 18 :=
  parseUnits_exact.2.1 "0.1" 18 100000000000000000 parseUnits_exact.1

/-- Decoding a serialized record recovers it field for field. -/
theorem recordOfJson_recordToJson (r : DeploymentRecord) :
    recordOfJson (recordToJson r) = some r := rfl

/-- Decoding a serialized record array recovers the record list. -/
theorem jsonList_recordOfJson (l : List DeploymentRecord) :
    jsonList recordOfJson (l.map recordToJson) = some l := by
  induction l with
  | nil => rfl
  | cons r rs ih => simp [jsonList, recordOfJson_recordToJson, ih]

/-- Reading an ASCII decimal digit back gives the digit. -/
theorem charToDigit_digitToChar {d : Nat} (h : d < 10) :
    charToDigit (digitToChar d) = d := by
  interval_cases d <;> rfl

/-- The rendering of a decimal digit is a digit character. -/
theorem isDigitChar_digitToChar {d : Nat} (h : d < 10) :
    isDigitChar (digitToChar d) = true := by
  interval_cases d <;> rfl

/-- Horner evaluation of a rendered digit list, most significant first. -/
theorem foldl_digits_rev (ds : List Nat) (h : ∀ d ∈ ds, d < 10) :
    ∀ acc : Nat,
      List.foldl (fun a c => a * 10 + charToDigit c) acc
          ((ds.map digitToChar).reverse)
        = acc * 10 ^ ds.length + Nat.ofDigits 10 ds := by
  induction ds with
  | nil => intro acc; simp [Nat.ofDigits]
  | cons d ds ih =>
    intro acc
    have hd : d < 10 := h d (List.mem_cons_self _ _)
    have hds : ∀ x ∈ ds, x < 10 := fun x hx => h x (List.mem_cons_of_mem _ hx)
    rw [List.map_cons, List.reverse_cons, List.foldl_concat]
    rw [ih hds acc, charToDigit_digitToChar hd, Nat.ofDigits_cons,
       List.length_cons, pow_succ]
    ring

/-- Reading back the decimal rendering of a natural number recovers it
exactly: the decimal-string representation loses no precision. -/
theorem parseDecimalNat_natToDecimalString (n : Nat) :
    parseDecimalNat (natToDecimalString n) = some n := by
  by_cases h0 : n = 0
  · subst h0
    rfl
  · have hne : Nat.digits 10 n ≠ [] := Nat.digits_ne_nil_iff_ne_zero.mpr h0
    have hlt : ∀ d ∈ Nat.digits 10 n, d < 10 :=
      fun d hd => Nat.digits_lt_base (by norm_num) hd
    rw [natToDecimalString, if_neg h0]
    rw [parseDecimalNat]
    have hdata :
        (String.mk (((Nat.digits 10 n).map digitToChar).reverse)).data
          = ((Nat.digits 10 n).map digitToChar).reverse := rfl
    rw [hdata]
    have hnonempty :
        (((Nat.digits 10 n).map digitToChar).reverse).isEmpty = false := by
      simp [List.isEmpty_iff, hne]
    have halldig :
        (((Nat.digits 10 n).map digitToChar).reverse).all isDigitChar
          = true := by
      rw [List.all_eq_true]
      intro c hc
      rw [List.mem_reverse, List.mem_map] at hc
      obtain ⟨d, hd, rfl⟩ := hc
      exact isDigitChar_digitToChar (hlt d hd)
    rw [hnonempty, halldig]
    simp only [Bool.not_false, Bool.true_and, if_pos]
    rw [digitsToNat, foldl_digits_rev _ hlt 0, Nat.ofDigits_digits]
    simp

/-- C7: serializing a deployment report and reloading it reproduces every
field of every record exactly; moreover the `gasUsed` field of a record is
the decimal rendering of the receipt's big-integer gas value and parses back
to exactly that value, so the string representation loses no precision. -/
theorem report_roundtrip :
    (∀ rep : DeploymentReport, reportOfJson (reportToJson rep) = some rep)
    ∧ (∀ (token : TokenDefinition) (c : DeployedContract) (receipt : Receipt),
        (mkDeploymentRecord token c receipt).gasUsed
            = natToDecimalString receipt.gasUsed
        ∧ parseDecimalNat ((mkDeploymentRecord token c receipt).gasUsed)
            = some receipt.gasUsed) := by
  constructor
  · intro rep
    obtain ⟨ts, nw, dep, recs⟩ := rep
    simp [reportToJson, reportOfJson, Json.getField, jsonField,
          Json.asStr, Json.asArr, jsonList_recordOfJson]
  · intro token c receipt
    exact ⟨rfl, parseDecimalNat_natToDecimalString receipt.gasUsed⟩

end ErcDeployer
